import Mathlib

/-
  Verification of the gpret-zero-revenue repository.

  Shallow embedding of:
  - src/gpret-token/contracts/GPRET.sol          (ERC-20 ledger, city price index, governance)
  - src/gpret-token/contracts/GPRETStaking.sol   (zero-reward staking ledger)
  - src/gpret-token/scripts/oracle/price-collector.js (price aggregation, fallback logic)

  Addresses are modelled as naturals (0 plays the role of address(0)); uint256
  arithmetic is modelled with Nat, with Solidity 0.8 checked arithmetic made
  explicit wherever a subtraction or decrement occurs (an underflow reverts).
  A reverting call returns an error and leaves the pre-state unchanged, which is
  modelled by Except: an error value carries no successor state.
-/

namespace GPRET

/-- TOTAL_SUPPLY constant of GPRET.sol: 1_000_000_000 * 10**18. -/
def TOTAL_SUPPLY : Nat := 1000000000 * 10 ^ 18

/-- VOTING_PERIOD constant: 7 days in seconds. -/
def VOTING_PERIOD : Nat := 7 * 86400

/-- PROPOSAL_THRESHOLD constant: 1000 * 10**18. -/
def PROPOSAL_THRESHOLD : Nat := 1000 * 10 ^ 18

/-- MIN_VOTING_DELAY constant: 1 day in seconds. -/
def MIN_VOTING_DELAY : Nat := 86400

/-- City struct of GPRET.sol. -/
structure City where
  name : String
  priceIndex : Nat
  weight : Nat
  isActive : Bool
  lastUpdated : Nat
deriving Repr, DecidableEq

/-- Zero-initialized City (Solidity mapping default). -/
def defaultCity : City := ⟨"", 0, 0, false, 0⟩

/-- Proposal struct of GPRET.sol. The struct-internal mapping
`hasVoted` is called `hasVotedIn` here to distinguish it from the
contract-level public mapping `hasVoted` declared next to `votingWeight`. -/
structure Proposal where
  id : Nat
  proposer : Nat
  description : String
  forVotes : Nat
  againstVotes : Nat
  startTime : Nat
  endTime : Nat
  executed : Bool
  passed : Bool
  hasVotedIn : Nat → Bool

/-- Zero-initialized Proposal (Solidity mapping default). -/
def defaultProposal : Proposal :=
  ⟨0, 0, "", 0, 0, 0, 0, false, false, fun _ => false⟩

/-- Contract storage of GPRET.sol (ERC20 + Pausable state included). -/
structure GPRETState where
  balances : Nat → Nat
  totalSupply : Nat
  paused : Bool
  cities : Nat → City
  cityCount : Nat
  globalPriceIndex : Nat
  oracleAddress : Nat
  lastUpdateTimestamp : Nat
  proposals : Nat → Proposal
  hasVoted : Nat → Nat → Bool
  votingWeight : Nat → Nat → Nat
  proposalCount : Nat
  owner : Nat

/-- Revert reasons of GPRET.sol and of the inherited OpenZeppelin code. -/
inductive GErr where
  | EnforcedPause
  | ERC20InsufficientBalance
  | ERC20InvalidSender
  | ERC20InvalidReceiver
  | OnlyOracle
  | InvalidCityId
  | CityNotActive
  | InvalidPriceIndex
  | InsufficientTokens
  | EmptyDescription
  | InvalidProposal
  | VotingNotStarted
  | VotingEnded
  | AlreadyVoted
  | ProposalExecuted
  | NoVotingPower
  | VotingNotEnded
  | AlreadyExecuted
  | OnlyOwner
  | InvalidWeight
deriving Repr, DecidableEq

/-- The ten cities installed by _initializeCities, with their weights. -/
def initialCityData : List (String × Nat) :=
  [("New York", 200000), ("London", 150000), ("Tokyo", 120000),
   ("Hong Kong", 100000), ("Singapore", 80000), ("Sydney", 80000),
   ("Toronto", 70000), ("Dubai", 70000), ("Paris", 70000), ("Frankfurt", 60000)]

/-- State right after the constructor ran at time t0 with the given initial
owner: TOTAL_SUPPLY minted to the owner, the ten cities installed with price
index 1000000, globalPriceIndex 1000000, everything else zero-initialized. -/
def initGPRET (initialOwner t0 : Nat) : GPRETState :=
  { balances := Function.update (fun _ => 0) initialOwner TOTAL_SUPPLY
    totalSupply := TOTAL_SUPPLY
    paused := false
    cities := fun i =>
      match initialCityData[i]? with
      | some nw => ⟨nw.1, 1000000, nw.2, true, t0⟩
      | none => defaultCity
    cityCount := initialCityData.length
    globalPriceIndex := 1000000
    oracleAddress := 0
    lastUpdateTimestamp := t0
    proposals := fun _ => defaultProposal
    hasVoted := fun _ _ => false
    votingWeight := fun _ _ => 0
    proposalCount := 0
    owner := initialOwner }

/-- OpenZeppelin v5 ERC20._update, under the whenNotPaused override of
GPRET.sol: mint when the source is address 0, burn when the target is
address 0, otherwise a balance move with a checked deduction. -/
def erc20Update (s : GPRETState) (src dst value : Nat) : Except GErr GPRETState :=
  if s.paused then .error .EnforcedPause
  else if src = 0 then
    let s1 := { s with totalSupply := s.totalSupply + value }
    if dst = 0 then .ok { s1 with totalSupply := s1.totalSupply - value }
    else .ok { s1 with balances := Function.update s1.balances dst (s1.balances dst + value) }
  else if s.balances src < value then .error .ERC20InsufficientBalance
  else
    let s1 := { s with balances := Function.update s.balances src (s.balances src - value) }
    if dst = 0 then .ok { s1 with totalSupply := s1.totalSupply - value }
    else .ok { s1 with balances := Function.update s1.balances dst (s1.balances dst + value) }

/-- ERC20.transfer as seen by GPRET: sender and receiver must not be the zero
address, then _update moves the value. -/
def transfer (s : GPRETState) (sender dst value : Nat) : Except GErr GPRETState :=
  if sender = 0 then .error .ERC20InvalidSender
  else if dst = 0 then .error .ERC20InvalidReceiver
  else erc20Update s sender dst value

/-- ERC20Burnable.burn: _burn(sender, value) = _update(sender, 0, value). -/
def burn (s : GPRETState) (sender value : Nat) : Except GErr GPRETState :=
  if sender = 0 then .error .ERC20InvalidSender
  else erc20Update s sender 0 value

/-- Token operations a trace may perform (claim C1 concerns these). -/
inductive TOp where
  | transferOp (sender dst value : Nat)
  | burnOp (sender value : Nat)
deriving Repr, DecidableEq

/-- Addresses an operation touches. -/
def TOp.addrs : TOp → List Nat
  | .transferOp sender dst _ => [sender, dst]
  | .burnOp sender _ => [sender]

/-- Whether the operation is a plain transfer (no burn). -/
def TOp.isTransfer : TOp → Bool
  | .transferOp _ _ _ => true
  | .burnOp _ _ => false

/-- Execute one token operation with revert semantics: a failing call leaves
the state unchanged. -/
def execTOp (s : GPRETState) : TOp → GPRETState
  | .transferOp sender dst value =>
    match transfer s sender dst value with
    | .ok s' => s'
    | .error _ => s
  | .burnOp sender value =>
    match burn s sender value with
    | .ok s' => s'
    | .error _ => s

/-- Execute a sequence of token operations. -/
def execTOps (s : GPRETState) (ops : List TOp) : GPRETState :=
  ops.foldl execTOp s

/-- Sum of priceIndex * weight over the active cities (the accumulator
newIndex of _updateGlobalIndex after its loop). -/
def weightedPriceSum (s : GPRETState) : Nat :=
  Finset.sum (Finset.range s.cityCount) fun i =>
    if (s.cities i).isActive then (s.cities i).priceIndex * (s.cities i).weight else 0

/-- Sum of weight over the active cities (the accumulator totalWeight of
_updateGlobalIndex after its loop). -/
def totalActiveWeight (s : GPRETState) : Nat :=
  Finset.sum (Finset.range s.cityCount) fun i =>
    if (s.cities i).isActive then (s.cities i).weight else 0

/-- _updateGlobalIndex: recompute the weighted average when the total active
weight is positive, otherwise leave the index (and the timestamp) alone. -/
def updateGlobalIndex (s : GPRETState) (now : Nat) : GPRETState :=
  if 0 < totalActiveWeight s then
    { s with globalPriceIndex := weightedPriceSum s / totalActiveWeight s
             lastUpdateTimestamp := now }
  else s

/-- updateCityPrice of GPRET.sol. -/
def updateCityPrice (s : GPRETState) (sender cityId newPriceIndex now : Nat) :
    Except GErr GPRETState :=
  if sender ≠ s.oracleAddress then .error .OnlyOracle
  else if ¬ cityId < s.cityCount then .error .InvalidCityId
  else if ¬ (s.cities cityId).isActive then .error .CityNotActive
  else if newPriceIndex = 0 then .error .InvalidPriceIndex
  else
    let c := { s.cities cityId with priceIndex := newPriceIndex, lastUpdated := now }
    let s1 := { s with cities := Function.update s.cities cityId c }
    .ok (updateGlobalIndex s1 now)

/-- updateCityWeight of GPRET.sol (owner only, weight must be positive). -/
def updateCityWeight (s : GPRETState) (sender cityId newWeight now : Nat) :
    Except GErr GPRETState :=
  if sender ≠ s.owner then .error .OnlyOwner
  else if ¬ cityId < s.cityCount then .error .InvalidCityId
  else if newWeight = 0 then .error .InvalidWeight
  else
    let c := { s.cities cityId with weight := newWeight }
    let s1 := { s with cities := Function.update s.cities cityId c }
    .ok (updateGlobalIndex s1 now)

/-- toggleCityStatus of GPRET.sol: flip isActive, then recompute the index. -/
def toggleCityStatus (s : GPRETState) (sender cityId now : Nat) :
    Except GErr GPRETState :=
  if sender ≠ s.owner then .error .OnlyOwner
  else if ¬ cityId < s.cityCount then .error .InvalidCityId
  else
    let c := { s.cities cityId with isActive := !(s.cities cityId).isActive }
    let s1 := { s with cities := Function.update s.cities cityId c }
    .ok (updateGlobalIndex s1 now)

/-- createProposal of GPRET.sol. Returns the new state and the proposal id.
The fields of proposals[proposalId] are assigned one by one in the source;
the struct-internal hasVoted mapping is left as stored, which is kept here. -/
def createProposal (s : GPRETState) (sender : Nat) (description : String) (now : Nat) :
    Except GErr (GPRETState × Nat) :=
  if s.balances sender < PROPOSAL_THRESHOLD then .error .InsufficientTokens
  else if description.isEmpty then .error .EmptyDescription
  else
    let proposalId := s.proposalCount
    let startTime := now + MIN_VOTING_DELAY
    let p := { s.proposals proposalId with
                 id := proposalId
                 proposer := sender
                 description := description
                 startTime := startTime
                 endTime := startTime + VOTING_PERIOD
                 executed := false
                 passed := false }
    .ok ({ s with proposals := Function.update s.proposals proposalId p
                  proposalCount := proposalId + 1 }, proposalId)

/-- vote of GPRET.sol. The require checks appear in source order: proposal id,
voting started, voting ended, already voted, proposal executed, voting power. -/
def vote (s : GPRETState) (sender proposalId : Nat) (support : Bool) (now : Nat) :
    Except GErr GPRETState :=
  if ¬ proposalId < s.proposalCount then .error .InvalidProposal
  else
    let p := s.proposals proposalId
    if now < p.startTime then .error .VotingNotStarted
    else if p.endTime < now then .error .VotingEnded
    else if p.hasVotedIn sender then .error .AlreadyVoted
    else if p.executed then .error .ProposalExecuted
    else
      let weight := s.balances sender
      if weight = 0 then .error .NoVotingPower
      else
        let p' := { p with
                      hasVotedIn := Function.update p.hasVotedIn sender true
                      forVotes := if support then p.forVotes + weight else p.forVotes
                      againstVotes := if support then p.againstVotes else p.againstVotes + weight }
        .ok { s with proposals := Function.update s.proposals proposalId p' }

/-- executeProposal of GPRET.sol: after the voting window, exactly once, set
executed and derive passed; nothing else changes. -/
def executeProposal (s : GPRETState) (proposalId now : Nat) : Except GErr GPRETState :=
  if ¬ proposalId < s.proposalCount then .error .InvalidProposal
  else
    let p := s.proposals proposalId
    if now ≤ p.endTime then .error .VotingNotEnded
    else if p.executed then .error .AlreadyExecuted
    else
      let p' := { p with executed := true, passed := p.againstVotes < p.forVotes }
      .ok { s with proposals := Function.update s.proposals proposalId p' }

end GPRET

namespace GPRETStaking

/-- MIN_STAKING_PERIOD constant: 7 days in seconds. -/
def MIN_STAKING_PERIOD : Nat := 7 * 86400

/-- MAX_STAKING_PERIOD constant: 365 days in seconds. -/
def MAX_STAKING_PERIOD : Nat := 365 * 86400

/-- StakeInfo struct of GPRETStaking.sol. -/
structure StakeInfo where
  amount : Nat
  stakingTime : Nat
  lockPeriod : Nat
  governanceWeight : Nat
  isActive : Bool
deriving Repr, DecidableEq

/-- Contract storage of GPRETStaking.sol. -/
structure StakingState where
  stakes : Nat → List StakeInfo
  userTotalStaked : Nat → Nat
  userGovernanceWeight : Nat → Nat
  totalStaked : Nat
  totalStakers : Nat
  periodMultipliers : Nat → Nat
  paused : Bool

/-- Revert reasons of GPRETStaking.sol (the checked-arithmetic panic of
Solidity 0.8 appears as ArithmeticUnderflow). -/
inductive StakingError where
  | EnforcedPause
  | ZeroAmount
  | InvalidLockPeriod
  | UnsupportedLockPeriod
  | InvalidStakeIndex
  | StakeNotActive
  | StillLocked
  | InvalidPeriod
  | InvalidMultiplier
  | ArithmeticUnderflow
deriving Repr, DecidableEq

/-- The period multiplier table installed by the constructor:
7d to 100, 30d to 110, 90d to 125, 180d to 150, 365d to 200,
everything else unset (0). -/
def initPeriodMultipliers : Nat → Nat := fun p =>
  if p = 7 * 86400 then 100
  else if p = 30 * 86400 then 110
  else if p = 90 * 86400 then 125
  else if p = 180 * 86400 then 150
  else if p = 365 * 86400 then 200
  else 0

/-- State right after the GPRETStaking constructor. -/
def initStaking : StakingState :=
  { stakes := fun _ => []
    userTotalStaked := fun _ => 0
    userGovernanceWeight := fun _ => 0
    totalStaked := 0
    totalStakers := 0
    periodMultipliers := initPeriodMultipliers
    paused := false }

/-- stake of GPRETStaking.sol. The token pull (safeTransferFrom) is external
to the staking ledger and is taken to succeed; a failing pull reverts the
whole call, leaving the ledger state unchanged, which the trace semantics
below covers anyway. -/
def stake (s : StakingState) (user amount lockPeriod now : Nat) :
    Except StakingError StakingState :=
  if s.paused then .error .EnforcedPause
  else if amount = 0 then .error .ZeroAmount
  else if ¬ (MIN_STAKING_PERIOD ≤ lockPeriod ∧ lockPeriod ≤ MAX_STAKING_PERIOD) then
    .error .InvalidLockPeriod
  else if s.periodMultipliers lockPeriod = 0 then .error .UnsupportedLockPeriod
  else
    let governanceWeight := amount * s.periodMultipliers lockPeriod / 100
    let entry : StakeInfo := ⟨amount, now, lockPeriod, governanceWeight, true⟩
    .ok { s with
            stakes := Function.update s.stakes user (s.stakes user ++ [entry])
            totalStakers := if s.userTotalStaked user = 0 then s.totalStakers + 1
                            else s.totalStakers
            userTotalStaked := Function.update s.userTotalStaked user
                                 (s.userTotalStaked user + amount)
            userGovernanceWeight := Function.update s.userGovernanceWeight user
                                      (s.userGovernanceWeight user + governanceWeight)
            totalStaked := s.totalStaked + amount }

/-- The common tail of unstake and emergencyUnstake: mark the entry inactive,
lower the per-user and global totals with checked subtractions, adjust the
staker count, and return the amount handed back by safeTransfer. -/
def finishUnstake (s : StakingState) (user stakeIndex : Nat) (e : StakeInfo) :
    Except StakingError (StakingState × Nat) :=
  if e.amount ≤ s.userTotalStaked user ∧
     e.governanceWeight ≤ s.userGovernanceWeight user ∧
     e.amount ≤ s.totalStaked ∧
     (s.userTotalStaked user - e.amount = 0 → 1 ≤ s.totalStakers) then
    let e' := { e with isActive := false }
    .ok ({ s with
             stakes := Function.update s.stakes user ((s.stakes user).set stakeIndex e')
             userTotalStaked := Function.update s.userTotalStaked user
                                  (s.userTotalStaked user - e.amount)
             userGovernanceWeight := Function.update s.userGovernanceWeight user
                                       (s.userGovernanceWeight user - e.governanceWeight)
             totalStaked := s.totalStaked - e.amount
             totalStakers := if s.userTotalStaked user - e.amount = 0 then s.totalStakers - 1
                             else s.totalStakers }, e.amount)
  else .error .ArithmeticUnderflow

/-- unstake of GPRETStaking.sol: validStakeIndex modifier (index in range and
entry active), then the lock-period check, then the common tail. -/
def unstake (s : StakingState) (user stakeIndex now : Nat) :
    Except StakingError (StakingState × Nat) :=
  match (s.stakes user)[stakeIndex]? with
  | none => .error .InvalidStakeIndex
  | some e =>
    if e.isActive then
      if now < e.stakingTime + e.lockPeriod then .error .StillLocked
      else finishUnstake s user stakeIndex e
    else .error .StakeNotActive

/-- emergencyUnstake of GPRETStaking.sol (owner-only in the source; the
caller is the owner by assumption here): the same as unstake but with no
lock-period check. -/
def emergencyUnstake (s : StakingState) (user stakeIndex : Nat) :
    Except StakingError (StakingState × Nat) :=
  match (s.stakes user)[stakeIndex]? with
  | none => .error .InvalidStakeIndex
  | some e =>
    if e.isActive then finishUnstake s user stakeIndex e
    else .error .StakeNotActive

/-- updatePeriodMultiplier of GPRETStaking.sol (owner only). -/
def updatePeriodMultiplier (s : StakingState) (period multiplier : Nat) :
    Except StakingError StakingState :=
  if ¬ (MIN_STAKING_PERIOD ≤ period ∧ period ≤ MAX_STAKING_PERIOD) then
    .error .InvalidPeriod
  else if ¬ (100 ≤ multiplier ∧ multiplier ≤ 500) then .error .InvalidMultiplier
  else .ok { s with periodMultipliers := Function.update s.periodMultipliers period multiplier }

/-- Ledger operations of the staking traces of claim C7. -/
inductive SOp where
  | stakeOp (user amount lockPeriod now : Nat)
  | unstakeOp (user stakeIndex now : Nat)
  | emergencyOp (user stakeIndex : Nat)
deriving Repr, DecidableEq

/-- The account an operation touches. -/
def SOp.user : SOp → Nat
  | .stakeOp u _ _ _ => u
  | .unstakeOp u _ _ => u
  | .emergencyOp u _ => u

/-- Execute one staking operation with revert semantics. -/
def execSOp (s : StakingState) : SOp → StakingState
  | .stakeOp u a p t =>
    match stake s u a p t with
    | .ok s' => s'
    | .error _ => s
  | .unstakeOp u i t =>
    match unstake s u i t with
    | .ok r => r.1
    | .error _ => s
  | .emergencyOp u i =>
    match emergencyUnstake s u i with
    | .ok r => r.1
    | .error _ => s

/-- Execute a sequence of staking operations from a state. -/
def execSOps (s : StakingState) (ops : List SOp) : StakingState :=
  ops.foldl execSOp s

/-- Sum of a projection over the active entries of a stake list. -/
def sumActiveBy (f : StakeInfo → Nat) : List StakeInfo → Nat
  | [] => 0
  | e :: rest => (if e.isActive then f e else 0) + sumActiveBy f rest

/-- Sum of the amounts of the active entries. -/
def sumActiveAmounts : List StakeInfo → Nat := sumActiveBy (·.amount)

/-- Sum of the governance weights of the active entries. -/
def sumActiveWeights : List StakeInfo → Nat := sumActiveBy (·.governanceWeight)

/-- A multiplier table only maps periods inside the allowed range; the
constructor table has this shape and updatePeriodMultiplier keeps it. -/
def MultTableWF (m : Nat → Nat) : Prop :=
  ∀ p, 0 < m p → MIN_STAKING_PERIOD ≤ p ∧ p ≤ MAX_STAKING_PERIOD

/-- The inductive invariant of the staking ledger over a universe A of
accounts: per-user active sums match the per-user totals, the user totals sum
to totalStaked, totalStakers counts the users with a nonzero total, accounts
outside A are untouched, and every recorded entry has a positive amount. -/
structure StakingInv (s : StakingState) (A : Finset Nat) : Prop where
  activeAmounts : ∀ u, sumActiveAmounts (s.stakes u) = s.userTotalStaked u
  activeWeights : ∀ u, sumActiveWeights (s.stakes u) = s.userGovernanceWeight u
  totalEq : Finset.sum A s.userTotalStaked = s.totalStaked
  stakersEq : Finset.sum A (fun v => if s.userTotalStaked v = 0 then 0 else 1) = s.totalStakers
  outside : ∀ u, u ∉ A → s.stakes u = [] ∧ s.userTotalStaked u = 0
  amountPos : ∀ u, ∀ e ∈ s.stakes u, 0 < e.amount

end GPRETStaking

namespace Oracle

/-- One configured data source of the collector (name, endpoint dropped,
source weight, active flag). -/
structure SourceCfg where
  name : String
  weight : Nat
  active : Bool
deriving Repr, DecidableEq

/-- The four configured data sources of price-collector.js. -/
def dataSources : List SourceCfg :=
  [⟨"Mock Real Estate API", 30, true⟩,
   ⟨"Free Property Index", 25, true⟩,
   ⟨"Open Real Estate Data", 25, true⟩,
   ⟨"Global Property Trends", 20, true⟩]

/-- What fetchFromSource resolves with on success: a price and a confidence.
JavaScript numbers are modelled as rationals. -/
structure PriceQuote where
  price : ℚ
  confidence : ℚ
deriving Repr, DecidableEq

/-- One element of cityResult.prices: source label, price, source weight,
confidence. -/
structure PriceEntry where
  source : String
  price : ℚ
  weight : Nat
  confidence : ℚ
deriving Repr, DecidableEq

/-- The per-city output of collectCityPrice. -/
structure CityResult where
  prices : List PriceEntry
  averagePrice : ℚ
  confidence : ℚ
  sources : Nat
deriving Repr, DecidableEq

/-- Math.round: round half toward positive infinity. -/
def jsRound (x : ℚ) : ℚ := ((x + 1/2).floor : ℚ)

/-- The source-loop body of collectCityPrice: walk the configured sources
together with each one's outcome (none models a thrown fetch error), keep a
price entry for each active source that returned a positive price, skip
failures and nonpositive prices. `priceData.confidence || 85` keeps 85 when
the returned confidence is falsy (0). -/
def collectPrices : List SourceCfg → List (Option PriceQuote) → List PriceEntry
  | [], _ => []
  | _, [] => []
  | src :: srcs, out :: outs =>
    let rest := collectPrices srcs outs
    if src.active then
      match out with
      | some q =>
        if 0 < q.price then
          ⟨src.name, q.price, src.weight, if q.confidence = 0 then 85 else q.confidence⟩ :: rest
        else rest
      | none => rest
    else rest

/-- generateMockPrices: three synthetic samples seeded by the city's fixed
base price, each scaled by 0.95 + r * 0.1 for a random draw r, with fixed
labels, weights 40/35/25 and confidences 90/85/80. -/
def generateMockPrices (basePrice : ℚ) (r1 r2 r3 : ℚ) : List PriceEntry :=
  [⟨"Historical Data", jsRound (basePrice * (95/100 + r1 * (1/10))), 40, 90⟩,
   ⟨"Market Trends", jsRound (basePrice * (95/100 + r2 * (1/10))), 35, 85⟩,
   ⟨"Local Indices", jsRound (basePrice * (95/100 + r3 * (1/10))), 25, 80⟩]

/-- calculateWeightedAverage of price-collector.js. -/
def calculateWeightedAverage (prices : List PriceEntry) : ℚ :=
  if prices.isEmpty then 0
  else
    let totalWeight : Nat := (prices.map (·.weight)).sum
    let weightedSum : ℚ := (prices.map (fun p => p.price * (p.weight : ℚ))).sum
    if 0 < totalWeight then jsRound (weightedSum / (totalWeight : ℚ)) else 0

/-- calculateConfidence of price-collector.js: average confidence plus a
bonus of 5 per source capped at 20, the whole capped at 100. -/
def calculateConfidence (prices : List PriceEntry) : ℚ :=
  if prices.isEmpty then 0
  else
    let avgConfidence : ℚ := (prices.map (·.confidence)).sum / (prices.length : ℚ)
    let sourcesBonus : ℚ := min ((prices.length : ℚ) * 5) 20
    min (jsRound (avgConfidence + sourcesBonus)) 100

/-- collectCityPrice of price-collector.js for one city, with the fetch
outcomes of the four sources and the three mock random draws as inputs: keep
the successful fetches; when none succeeded, fall back to the synthetic mock
samples and count them as the city's sources. -/
def collectCityPrice (fetches : List (Option PriceQuote)) (basePrice : ℚ)
    (r1 r2 r3 : ℚ) : CityResult :=
  let collected := collectPrices dataSources fetches
  let prices := if collected.isEmpty then generateMockPrices basePrice r1 r2 r3 else collected
  let sources := if collected.isEmpty then prices.length else collected.length
  { prices := prices
    averagePrice := calculateWeightedAverage prices
    confidence := calculateConfidence prices
    sources := sources }

end Oracle

namespace GPRET

/-- A concrete state with one open proposal: the initial owner 1 creates
proposal 0 at time 0, so the voting window is [86400, 691200]. -/
def c8state : GPRETState :=
  match createProposal (initGPRET 1 0) 1 "x" 0 with
  | .ok r => r.1
  | .error _ => initGPRET 1 0

/-- Voting twice on proposal 0 of c8state, the second time after the voting
window closed: first vote at 86400 (start of the window), second at 700000
(after endTime 691200). -/
def voteTwiceLate : Except GErr GPRETState :=
  match vote c8state 1 0 true 86400 with
  | .ok s2 => vote s2 1 0 true 700000
  | .error e => .error e

/-- A concrete state whose city table has exactly one (active) city: the
initial state restricted to city 0. -/
def c2bState : GPRETState := { initGPRET 1 0 with cityCount := 1 }

/-- The first vote of the second-vote scenario: account 1 votes on proposal 0
of c8state at time 86400, inside the voting window. -/
def c3FirstVote : Except GErr GPRETState := vote c8state 1 0 true 86400

/-- Whether an Except value is a success. -/
def exceptOk {ε α : Type} : Except ε α → Bool
  | .ok _ => true
  | .error _ => false

end GPRET

namespace GPRET

lemma sum_update_mem (A : Finset ℕ) (f : ℕ → ℕ) (u b : ℕ) (hu : u ∈ A) :
    Finset.sum A (Function.update f u b) = b + Finset.sum (A.erase u) f := by
  rw [Finset.sum_update_of_mem hu, Finset.sdiff_singleton_eq_erase]

lemma sum_eq_add_erase (A : Finset ℕ) (f : ℕ → ℕ) (u : ℕ) (hu : u ∈ A) :
    Finset.sum A f = f u + Finset.sum (A.erase u) f :=
  (Finset.add_sum_erase A f hu).symm

lemma sum_erase_of_update (A : Finset ℕ) (f : ℕ → ℕ) (u b : ℕ) :
    Finset.sum (A.erase u) (Function.update f u b) = Finset.sum (A.erase u) f :=
  Finset.sum_congr rfl fun x hx =>
    Function.update_noteq (Finset.mem_erase.mp hx).1 b f

lemma transfer_ok {s s' : GPRETState} {sender dst value : Nat}
    (h : transfer s sender dst value = .ok s') :
    value ≤ s.balances sender ∧ s'.totalSupply = s.totalSupply ∧
      s'.balances = Function.update (Function.update s.balances sender (s.balances sender - value))
        dst (Function.update s.balances sender (s.balances sender - value) dst + value) := by
  simp only [transfer, erc20Update] at h
  split_ifs at h
  all_goals cases h
  exact ⟨by omega, rfl, rfl⟩

lemma burn_ok {s s' : GPRETState} {sender value : Nat}
    (h : burn s sender value = .ok s') :
    value ≤ s.balances sender ∧ s'.totalSupply = s.totalSupply - value ∧
      s'.balances = Function.update s.balances sender (s.balances sender - value) := by
  simp only [burn, erc20Update] at h
  split_ifs at h
  all_goals cases h
  exact ⟨by omega, rfl, rfl⟩

lemma sum_transfer_update (A : Finset ℕ) (bal : ℕ → ℕ) (sender dst v : ℕ)
    (hs : sender ∈ A) (hd : dst ∈ A) (hv : v ≤ bal sender) :
    Finset.sum A (Function.update (Function.update bal sender (bal sender - v)) dst
        (Function.update bal sender (bal sender - v) dst + v)) = Finset.sum A bal := by
  set f1 := Function.update bal sender (bal sender - v) with hf1
  rw [sum_update_mem A f1 dst _ hd]
  by_cases hsd : dst = sender
  · subst hsd
    have h1 : f1 dst = bal dst - v := by rw [hf1, Function.update_same]
    have h2 : Finset.sum (A.erase dst) f1 = Finset.sum (A.erase dst) bal := by
      rw [hf1]; exact sum_erase_of_update A bal dst _
    rw [h1, h2, sum_eq_add_erase A bal dst hd]
    omega
  · have h1 : f1 dst = bal dst := by rw [hf1]; exact Function.update_noteq hsd _ _
    have hsmem : sender ∈ A.erase dst := Finset.mem_erase.mpr ⟨fun hc => hsd hc.symm, hs⟩
    have h2 : Finset.sum (A.erase dst) f1
        = (bal sender - v) + Finset.sum ((A.erase dst).erase sender) bal := by
      rw [sum_eq_add_erase (A.erase dst) f1 sender hsmem, hf1, Function.update_same]
      congr 1
      exact sum_erase_of_update (A.erase dst) bal sender _
    have h3 : Finset.sum A bal
        = bal dst + (bal sender + Finset.sum ((A.erase dst).erase sender) bal) := by
      rw [sum_eq_add_erase A bal dst hd, sum_eq_add_erase (A.erase dst) bal sender hsmem]
    rw [h1, h2, h3]
    omega

lemma execTOp_conserves (s : GPRETState) (op : TOp) (A : Finset ℕ)
    (haddr : ∀ a ∈ op.addrs, a ∈ A)
    (hsum : Finset.sum A s.balances = s.totalSupply) :
    Finset.sum A (execTOp s op).balances = (execTOp s op).totalSupply ∧
      (op.isTransfer = true → (execTOp s op).totalSupply = s.totalSupply) := by
  cases op with
  | transferOp sender dst value =>
    have hs : sender ∈ A := haddr sender (by simp [TOp.addrs])
    have hd : dst ∈ A := haddr dst (by simp [TOp.addrs])
    simp only [execTOp]
    cases htr : transfer s sender dst value with
    | error e => exact ⟨hsum, fun _ => rfl⟩
    | ok s' =>
      obtain ⟨hv, hsup, hbal⟩ := transfer_ok htr
      refine ⟨?_, fun _ => hsup⟩
      rw [hbal, hsup, sum_transfer_update A s.balances sender dst value hs hd hv, hsum]
  | burnOp sender value =>
    have hs : sender ∈ A := haddr sender (by simp [TOp.addrs])
    simp only [execTOp]
    cases hbr : burn s sender value with
    | error e => exact ⟨hsum, fun _ => rfl⟩
    | ok s' =>
      obtain ⟨hv, hsup, hbal⟩ := burn_ok hbr
      refine ⟨?_, fun hfalse => by simp [TOp.isTransfer] at hfalse⟩
      have hb : s.balances sender ≤ s.totalSupply := by
        rw [← hsum]
        exact Finset.single_le_sum (fun i _ => Nat.zero_le _) hs
      rw [hbal, hsup, sum_update_mem A s.balances sender _ hs,
          sum_eq_add_erase A s.balances sender hs] at *
      omega

lemma execTOps_conserves (ops : List TOp) (A : Finset ℕ) (s : GPRETState)
    (haddrs : ∀ op ∈ ops, ∀ a ∈ TOp.addrs op, a ∈ A)
    (hsum : Finset.sum A s.balances = s.totalSupply) :
    Finset.sum A (execTOps s ops).balances = (execTOps s ops).totalSupply ∧
      ((∀ op ∈ ops, op.isTransfer = true) →
        (execTOps s ops).totalSupply = s.totalSupply) := by
  induction ops generalizing s with
  | nil => exact ⟨hsum, fun _ => rfl⟩
  | cons op rest ih =>
    have hstep := execTOp_conserves s op A (haddrs op (by simp)) hsum
    have hrest := ih (execTOp s op) (fun o ho => haddrs o (by simp [ho])) hstep.1
    refine ⟨hrest.1, fun hall => ?_⟩
    rw [execTOps, List.foldl_cons]
    have h1 : (execTOps (execTOp s op) rest).totalSupply = (execTOp s op).totalSupply :=
      hrest.2 fun o ho => hall o (by simp [ho])
    have h2 : (execTOp s op).totalSupply = s.totalSupply :=
      hstep.2 (hall op (by simp))
    rw [execTOps] at h1
    rw [h1, h2]

lemma initGPRET_sum (A : Finset ℕ) (initialOwner t0 : Nat) (hown : initialOwner ∈ A) :
    Finset.sum A (initGPRET initialOwner t0).balances
      = (initGPRET initialOwner t0).totalSupply := by
  show Finset.sum A (Function.update (fun _ => 0) initialOwner TOTAL_SUPPLY) = TOTAL_SUPPLY
  rw [sum_update_mem A _ initialOwner _ hown, Finset.sum_const_zero]
  omega

/-- C1: starting from the constructor state (TOTAL_SUPPLY minted to the
initial owner), over any sequence of transfer and burn calls whose
participants lie in the address universe A, the sum of all balances always
equals the current total supply; and when the sequence contains only
transfers (no burns), the total supply — and hence the balance sum — is still
the initial TOTAL_SUPPLY. -/
theorem c1_balance_conservation (ops : List TOp) (A : Finset ℕ) (initialOwner t0 : Nat)
    (hown : initialOwner ∈ A)
    (haddrs : ∀ op ∈ ops, ∀ a ∈ TOp.addrs op, a ∈ A) :
    Finset.sum A (execTOps (initGPRET initialOwner t0) ops).balances
        = (execTOps (initGPRET initialOwner t0) ops).totalSupply ∧
      ((∀ op ∈ ops, op.isTransfer = true) →
        (execTOps (initGPRET initialOwner t0) ops).totalSupply = TOTAL_SUPPLY ∧
        Finset.sum A (execTOps (initGPRET initialOwner t0) ops).balances = TOTAL_SUPPLY) := by
  have hinit := initGPRET_sum A initialOwner t0 hown
  have h := execTOps_conserves ops A (initGPRET initialOwner t0) haddrs hinit
  refine ⟨h.1, fun hall => ?_⟩
  have hT : (execTOps (initGPRET initialOwner t0) ops).totalSupply = TOTAL_SUPPLY := h.2 hall
  exact ⟨hT, by rw [h.1, hT]⟩

lemma weight_le_totalActiveWeight (s : GPRETState) (i : Nat) (hi : i < s.cityCount)
    (ha : (s.cities i).isActive = true) :
    (s.cities i).weight ≤ totalActiveWeight s := by
  unfold totalActiveWeight
  have h := Finset.single_le_sum
    (f := fun j => if (s.cities j).isActive then (s.cities j).weight else 0)
    (fun j _ => Nat.zero_le _) (Finset.mem_range.mpr hi)
  simpa [ha] using h

lemma updateGlobalIndex_spec (s : GPRETState) (now : Nat) :
    (0 < totalActiveWeight s →
      (updateGlobalIndex s now).globalPriceIndex = weightedPriceSum s / totalActiveWeight s) ∧
    (totalActiveWeight s = 0 → updateGlobalIndex s now = s) ∧
    (updateGlobalIndex s now).cities = s.cities ∧
    (updateGlobalIndex s now).cityCount = s.cityCount := by
  unfold updateGlobalIndex
  split_ifs with h
  · exact ⟨fun _ => rfl, fun h0 => absurd h0 (by omega), rfl, rfl⟩
  · exact ⟨fun h0 => absurd h0 h, fun _ => rfl, rfl, rfl⟩

lemma totalActiveWeight_congr (s t : GPRETState) (hc : t.cities = s.cities)
    (hn : t.cityCount = s.cityCount) : totalActiveWeight t = totalActiveWeight s := by
  unfold totalActiveWeight
  rw [hc, hn]

lemma weightedPriceSum_congr (s t : GPRETState) (hc : t.cities = s.cities)
    (hn : t.cityCount = s.cityCount) : weightedPriceSum t = weightedPriceSum s := by
  unfold weightedPriceSum
  rw [hc, hn]

/-- C2: (a) a successful updateCityPrice on an active city (whose weight is
positive, which holds in every reachable state: the constructor installs
positive weights and updateCityWeight requires one) leaves globalPriceIndex
equal to the weighted average over the active cities, recomputed on the spot;
(b) toggling the last remaining active city off makes the total active weight
zero and leaves globalPriceIndex unchanged — no division happens. -/
theorem c2_index_recompute_and_zero_weight (s : GPRETState)
    (sender cityId newPriceIndex now : Nat) :
    (sender = s.oracleAddress → cityId < s.cityCount → (s.cities cityId).isActive = true →
      0 < newPriceIndex → 0 < (s.cities cityId).weight →
      ∃ s', updateCityPrice s sender cityId newPriceIndex now = .ok s' ∧
        0 < totalActiveWeight s' ∧
        s'.globalPriceIndex = weightedPriceSum s' / totalActiveWeight s') ∧
    (sender = s.owner → cityId < s.cityCount → (s.cities cityId).isActive = true →
      (∀ j, j < s.cityCount → (s.cities j).isActive = true → j = cityId) →
      ∃ s', toggleCityStatus s sender cityId now = .ok s' ∧
        totalActiveWeight s' = 0 ∧
        s'.globalPriceIndex = s.globalPriceIndex) := by
  constructor
  · intro h1 h2 h3 h4 h5
    set c : City := { s.cities cityId with priceIndex := newPriceIndex, lastUpdated := now }
      with hcdef
    set s1 : GPRETState := { s with cities := Function.update s.cities cityId c } with hs1def
    have heq : updateCityPrice s sender cityId newPriceIndex now
        = .ok (updateGlobalIndex s1 now) := by
      simp only [updateCityPrice]
      rw [if_neg (by simp [h1]), if_neg (by omega), if_neg (by simp [h3]),
          if_neg (by omega)]
    have hc1 : s1.cities cityId = c := Function.update_same cityId c s.cities
    have hcount : s1.cityCount = s.cityCount := rfl
    have hact : (s1.cities cityId).isActive = true := by rw [hc1, hcdef]; exact h3
    have hwt : (s1.cities cityId).weight = (s.cities cityId).weight := by rw [hc1, hcdef]
    have htaw : 0 < totalActiveWeight s1 := by
      have hle := weight_le_totalActiveWeight s1 cityId (by rw [hcount]; exact h2) hact
      rw [hwt] at hle
      omega
    obtain ⟨hidx, _, hcities, hcnt⟩ := updateGlobalIndex_spec s1 now
    refine ⟨updateGlobalIndex s1 now, heq, ?_, ?_⟩
    · rw [totalActiveWeight_congr s1 _ hcities hcnt]
      exact htaw
    · rw [hidx htaw, totalActiveWeight_congr s1 _ hcities hcnt,
          weightedPriceSum_congr s1 _ hcities hcnt]
  · intro h1 h2 h3 honly
    set c : City := { s.cities cityId with isActive := !(s.cities cityId).isActive }
      with hcdef
    set s1 : GPRETState := { s with cities := Function.update s.cities cityId c } with hs1def
    have heq : toggleCityStatus s sender cityId now = .ok (updateGlobalIndex s1 now) := by
      simp only [toggleCityStatus]
      rw [if_neg (by simp [h1]), if_neg (by omega)]
    have htaw : totalActiveWeight s1 = 0 := by
      unfold totalActiveWeight
      apply Finset.sum_eq_zero
      intro j hj
      by_cases hjc : j = cityId
      · subst hjc
        have : s1.cities j = c := Function.update_same j c s.cities
        rw [this, hcdef]
        simp [h3]
      · have : s1.cities j = s.cities j := Function.update_noteq hjc c s.cities
        rw [this]
        have hcnt : j < s.cityCount := by
          have := Finset.mem_range.mp hj
          exact this
        by_cases hja : (s.cities j).isActive = true
        · exact absurd (honly j hcnt hja) hjc
        · simp [hja]
    obtain ⟨_, hid, _, _⟩ := updateGlobalIndex_spec s1 now
    refine ⟨updateGlobalIndex s1 now, heq, ?_, ?_⟩
    · rw [hid htaw]
      exact htaw
    · rw [hid htaw]

/-- Witness for C2: part (a) on the freshly constructed contract with the
oracle at its default, updating city 0; part (b) on the one-city variant. -/
theorem c2_index_recompute_and_zero_weight_witness :
    (∃ s', updateCityPrice (initGPRET 1 0) 0 0 1100000 5 = .ok s' ∧
      0 < totalActiveWeight s' ∧
      s'.globalPriceIndex = weightedPriceSum s' / totalActiveWeight s') ∧
    (∃ s', toggleCityStatus c2bState 1 0 5 = .ok s' ∧
      totalActiveWeight s' = 0 ∧
      s'.globalPriceIndex = c2bState.globalPriceIndex) :=
  ⟨(c2_index_recompute_and_zero_weight (initGPRET 1 0) 0 0 1100000 5).1
      (by decide) (by decide) (by decide) (by decide) (by decide),
   (c2_index_recompute_and_zero_weight c2bState 1 0 0 5).2
      (by decide) (by decide) (by decide) (by decide)⟩

/-- Witness for C1: two transfers and a failing one from the initial owner. -/
theorem c1_balance_conservation_witness :
    (Finset.sum {1, 2, 3} (execTOps (initGPRET 1 0)
          [TOp.transferOp 1 2 5, TOp.transferOp 2 3 2, TOp.transferOp 3 2 99]).balances
        = (execTOps (initGPRET 1 0)
          [TOp.transferOp 1 2 5, TOp.transferOp 2 3 2, TOp.transferOp 3 2 99]).totalSupply) ∧
      ((execTOps (initGPRET 1 0)
          [TOp.transferOp 1 2 5, TOp.transferOp 2 3 2, TOp.transferOp 3 2 99]).totalSupply
        = TOTAL_SUPPLY) := by
  have h := c1_balance_conservation
    [TOp.transferOp 1 2 5, TOp.transferOp 2 3 2, TOp.transferOp 3 2 99]
    {1, 2, 3} 1 0 (by decide) (by decide)
  exact ⟨h.1, (h.2 (by decide)).1⟩

lemma vote_success (s : GPRETState) (a pid : Nat) (sup : Bool) (now : Nat)
    (h1 : pid < s.proposalCount)
    (h2 : (s.proposals pid).startTime ≤ now)
    (h3 : now ≤ (s.proposals pid).endTime)
    (h4 : (s.proposals pid).hasVotedIn a = false)
    (h5 : (s.proposals pid).executed = false)
    (h6 : 0 < s.balances a) :
    ∃ p' : Proposal,
      vote s a pid sup now = .ok { s with proposals := Function.update s.proposals pid p' } ∧
      p'.hasVotedIn = Function.update (s.proposals pid).hasVotedIn a true ∧
      p'.startTime = (s.proposals pid).startTime ∧
      p'.endTime = (s.proposals pid).endTime := by
  refine ⟨{ s.proposals pid with
              hasVotedIn := Function.update (s.proposals pid).hasVotedIn a true
              forVotes := if sup then (s.proposals pid).forVotes + s.balances a
                          else (s.proposals pid).forVotes
              againstVotes := if sup then (s.proposals pid).againstVotes
                              else (s.proposals pid).againstVotes + s.balances a },
          ?_, rfl, rfl, rfl⟩
  simp only [vote]
  rw [if_neg (by omega), if_neg (by omega), if_neg (by omega),
      if_neg (by simp [h4]), if_neg (by simp [h5]), if_neg (by omega)]

/-- Counterexample to C3 as stated: on the concrete contract state c8state
(one proposal, voting window [86400, 691200]) the first vote of account 1 at
time 86400 succeeds, yet the second vote call of the same account on the same
proposal, placed at time 700000 after the window closed, fails with
VotingEnded, not with AlreadyVoted: the endTime require precedes the
hasVoted require in the source of vote. -/
theorem c3_counterexample_second_vote_error :
    exceptOk c3FirstVote = true ∧
      voteTwiceLate = .error GErr.VotingEnded ∧
      GErr.VotingEnded ≠ GErr.AlreadyVoted :=
  ⟨rfl, rfl, by decide⟩

/-- C3 (amended): for every (proposal, account) pair at most one vote is ever
recorded — the first successful vote permanently sets the per-proposal
has-voted flag, and every second vote call of the same account on the same
proposal fails (reverting, so the tallies are unchanged): with AlreadyVoted
whenever the second call still falls inside the voting window, and with
VotingEnded when it comes after the window. -/
theorem c3_single_vote_per_account (s : GPRETState) (a pid : Nat) (sup sup' : Bool)
    (now now' : Nat)
    (h1 : pid < s.proposalCount)
    (h2 : (s.proposals pid).startTime ≤ now)
    (h3 : now ≤ (s.proposals pid).endTime)
    (h4 : (s.proposals pid).hasVotedIn a = false)
    (h5 : (s.proposals pid).executed = false)
    (h6 : 0 < s.balances a)
    (hmono : now ≤ now') :
    ∃ s', vote s a pid sup now = .ok s' ∧
      (s'.proposals pid).hasVotedIn a = true ∧
      vote s' a pid sup' now'
        = .error (if now' ≤ (s.proposals pid).endTime then GErr.AlreadyVoted
                  else GErr.VotingEnded) := by
  obtain ⟨p', hok, hhv, hst, hen⟩ := vote_success s a pid sup now h1 h2 h3 h4 h5 h6
  set s' : GPRETState := { s with proposals := Function.update s.proposals pid p' }
    with hs'def
  have hsp : s'.proposals pid = p' := Function.update_same pid p' s.proposals
  have hflag : (s'.proposals pid).hasVotedIn a = true := by
    rw [hsp, hhv]
    exact Function.update_same a true (s.proposals pid).hasVotedIn
  have hpflag : p'.hasVotedIn a = true := by
    rw [hhv]
    exact Function.update_same a true (s.proposals pid).hasVotedIn
  refine ⟨s', hok, hflag, ?_⟩
  simp only [vote, Function.update_same]
  rw [if_neg (by omega)]
  by_cases hwin : now' ≤ (s.proposals pid).endTime
  · rw [if_neg (by rw [hst]; omega), if_neg (by rw [hen]; omega), if_pos hpflag,
        if_pos hwin]
  · rw [if_neg (by rw [hst]; omega), if_pos (by rw [hen]; omega), if_neg hwin]

/-- Witness for C3 (amended): on c8state, account 1 votes at 86400; a second
vote one second later is refused with AlreadyVoted. -/
theorem c3_single_vote_per_account_witness :
    ∃ s', vote c8state 1 0 true 86400 = .ok s' ∧
      (s'.proposals 0).hasVotedIn 1 = true ∧
      vote s' 1 0 true 86401
        = .error (if 86401 ≤ (c8state.proposals 0).endTime then GErr.AlreadyVoted
                  else GErr.VotingEnded) :=
  c3_single_vote_per_account c8state 1 0 true true 86400 86401
    (by decide) (by decide) (by decide) (by decide) (by decide) (by decide) (by decide)

/-- C8: for an existing proposal, executeProposal fails with VotingNotEnded
whenever now is at or before endTime; when the window has passed and the
proposal is unexecuted it succeeds, setting executed to true and passed to
(forVotes > againstVotes) while leaving every other piece of state — the
other fields of the proposal, the other proposals, balances, cities, index,
mappings and counters — untouched; and any call after a successful execution
fails with AlreadyExecuted. -/
theorem c8_execute_proposal_lifecycle (s : GPRETState) (pid now : Nat)
    (hpid : pid < s.proposalCount) :
    (now ≤ (s.proposals pid).endTime →
      executeProposal s pid now = .error GErr.VotingNotEnded) ∧
    ((s.proposals pid).endTime < now → (s.proposals pid).executed = false →
      ∃ s', executeProposal s pid now = .ok s' ∧
        (s'.proposals pid).executed = true ∧
        ((s'.proposals pid).passed = true ↔
          (s.proposals pid).againstVotes < (s.proposals pid).forVotes) ∧
        (s'.proposals pid).forVotes = (s.proposals pid).forVotes ∧
        (s'.proposals pid).againstVotes = (s.proposals pid).againstVotes ∧
        (s'.proposals pid).startTime = (s.proposals pid).startTime ∧
        (s'.proposals pid).endTime = (s.proposals pid).endTime ∧
        (s'.proposals pid).proposer = (s.proposals pid).proposer ∧
        (s'.proposals pid).description = (s.proposals pid).description ∧
        (s'.proposals pid).hasVotedIn = (s.proposals pid).hasVotedIn ∧
        (∀ q, q ≠ pid → s'.proposals q = s.proposals q) ∧
        s'.balances = s.balances ∧ s'.totalSupply = s.totalSupply ∧
        s'.paused = s.paused ∧ s'.cities = s.cities ∧
        s'.cityCount = s.cityCount ∧ s'.globalPriceIndex = s.globalPriceIndex ∧
        s'.oracleAddress = s.oracleAddress ∧
        s'.lastUpdateTimestamp = s.lastUpdateTimestamp ∧
        s'.hasVoted = s.hasVoted ∧ s'.votingWeight = s.votingWeight ∧
        s'.proposalCount = s.proposalCount ∧ s'.owner = s.owner ∧
        (∀ later, now ≤ later →
          executeProposal s' pid later = .error GErr.AlreadyExecuted)) := by
  constructor
  · intro hle
    simp only [executeProposal]
    rw [if_neg (by omega), if_pos hle]
  · intro hgt hexec
    set P : Proposal := { s.proposals pid with
                            executed := true
                            passed := (s.proposals pid).againstVotes < (s.proposals pid).forVotes }
      with hPdef
    have hok : executeProposal s pid now
        = .ok { s with proposals := Function.update s.proposals pid P } := by
      simp only [executeProposal]
      rw [if_neg (by omega), if_neg (by omega), if_neg (by simp [hexec])]
    set s' : GPRETState := { s with proposals := Function.update s.proposals pid P }
      with hs'def
    have hsp : s'.proposals pid = P := Function.update_same pid P s.proposals
    refine ⟨s', hok, ?_, ?_, ?_, ?_, ?_, ?_, ?_, ?_, ?_, ?_, rfl, rfl, rfl, rfl,
            rfl, rfl, rfl, rfl, rfl, rfl, rfl, rfl, ?_⟩
    · rw [hsp]
    · rw [hsp, hPdef]
      simp
    · rw [hsp]
    · rw [hsp]
    · rw [hsp]
    · rw [hsp]
    · rw [hsp]
    · rw [hsp]
    · rw [hsp]
    · intro q hq
      exact Function.update_noteq hq P s.proposals
    · intro later hlater
      have hend : (s'.proposals pid).endTime = (s.proposals pid).endTime := by rw [hsp]
      have hex : (s'.proposals pid).executed = true := by rw [hsp]
      simp only [executeProposal]
      rw [if_neg (by omega), if_neg (by rw [hend]; omega), if_pos hex]

/-- Witness for C8: on c8state (endTime 691200), an early call at 600000 is
refused with VotingNotEnded, and a call at 700000 succeeds as described. -/
theorem c8_execute_proposal_lifecycle_witness :
    (executeProposal c8state 0 600000 = .error GErr.VotingNotEnded) ∧
    (∃ s', executeProposal c8state 0 700000 = .ok s' ∧
        (s'.proposals 0).executed = true ∧
        ((s'.proposals 0).passed = true ↔
          (c8state.proposals 0).againstVotes < (c8state.proposals 0).forVotes) ∧
        (s'.proposals 0).forVotes = (c8state.proposals 0).forVotes ∧
        (s'.proposals 0).againstVotes = (c8state.proposals 0).againstVotes ∧
        (s'.proposals 0).startTime = (c8state.proposals 0).startTime ∧
        (s'.proposals 0).endTime = (c8state.proposals 0).endTime ∧
        (s'.proposals 0).proposer = (c8state.proposals 0).proposer ∧
        (s'.proposals 0).description = (c8state.proposals 0).description ∧
        (s'.proposals 0).hasVotedIn = (c8state.proposals 0).hasVotedIn ∧
        (∀ q, q ≠ 0 → s'.proposals q = c8state.proposals q) ∧
        s'.balances = c8state.balances ∧ s'.totalSupply = c8state.totalSupply ∧
        s'.paused = c8state.paused ∧ s'.cities = c8state.cities ∧
        s'.cityCount = c8state.cityCount ∧
        s'.globalPriceIndex = c8state.globalPriceIndex ∧
        s'.oracleAddress = c8state.oracleAddress ∧
        s'.lastUpdateTimestamp = c8state.lastUpdateTimestamp ∧
        s'.hasVoted = c8state.hasVoted ∧ s'.votingWeight = c8state.votingWeight ∧
        s'.proposalCount = c8state.proposalCount ∧ s'.owner = c8state.owner ∧
        (∀ later, 700000 ≤ later →
          executeProposal s' 0 later = .error GErr.AlreadyExecuted)) :=
  ⟨(c8_execute_proposal_lifecycle c8state 0 600000 (by decide)).1 (by decide),
   (c8_execute_proposal_lifecycle c8state 0 700000 (by decide)).2 (by decide) (by decide)⟩

/-- C10: a successful vote call never writes the contract-level public
hasVoted and votingWeight mappings — it records the vote only in the
proposal struct's internal flag — so the public hasVoted getter still
answers false for that (proposal, voter) pair after the vote whenever it
answered false before (as it does in every reachable state: nothing in the
contract ever assigns either mapping). -/
theorem c10_vote_leaves_public_mappings (s : GPRETState) (a pid : Nat) (sup : Bool)
    (now : Nat)
    (h1 : pid < s.proposalCount)
    (h2 : (s.proposals pid).startTime ≤ now)
    (h3 : now ≤ (s.proposals pid).endTime)
    (h4 : (s.proposals pid).hasVotedIn a = false)
    (h5 : (s.proposals pid).executed = false)
    (h6 : 0 < s.balances a) :
    ∃ s', vote s a pid sup now = .ok s' ∧
      s'.hasVoted = s.hasVoted ∧
      s'.votingWeight = s.votingWeight ∧
      (s.hasVoted pid a = false → s'.hasVoted pid a = false) := by
  obtain ⟨p', hok, -, -, -⟩ := vote_success s a pid sup now h1 h2 h3 h4 h5 h6
  exact ⟨_, hok, rfl, rfl, fun h => h⟩

/-- Witness for C10: the vote of account 1 on proposal 0 of c8state leaves
both public mappings untouched. -/
theorem c10_vote_leaves_public_mappings_witness :
    ∃ s', vote c8state 1 0 true 86400 = .ok s' ∧
      s'.hasVoted = c8state.hasVoted ∧
      s'.votingWeight = c8state.votingWeight ∧
      (c8state.hasVoted 0 1 = false → s'.hasVoted 0 1 = false) :=
  c10_vote_leaves_public_mappings c8state 1 0 true 86400
    (by decide) (by decide) (by decide) (by decide) (by decide) (by decide)

end GPRET

namespace GPRETStaking

lemma getElem?_concat_len {α : Type} (l : List α) (a : α) : (l ++ [a])[l.length]? = some a := by
  induction l with
  | nil => rfl
  | cons x xs ih => simpa using ih

lemma initPeriodMultipliers_wf : MultTableWF initPeriodMultipliers := by
  intro p hp
  unfold initPeriodMultipliers at hp
  split_ifs at hp with h1 h2 h3 h4 h5
  · subst h1; exact ⟨by decide, by decide⟩
  · subst h2; exact ⟨by decide, by decide⟩
  · subst h3; exact ⟨by decide, by decide⟩
  · subst h4; exact ⟨by decide, by decide⟩
  · subst h5; exact ⟨by decide, by decide⟩
  · omega

lemma updatePeriodMultiplier_keeps_wf {s s' : StakingState} {period multiplier : Nat}
    (h : updatePeriodMultiplier s period multiplier = .ok s')
    (hwf : MultTableWF s.periodMultipliers) : MultTableWF s'.periodMultipliers := by
  simp only [updatePeriodMultiplier] at h
  split_ifs at h with hper hmul
  all_goals cases h
  intro p hp
  have hp' : 0 < Function.update s.periodMultipliers period multiplier p := hp
  by_cases hpq : p = period
  · subst hpq
    omega
  · rw [Function.update_noteq hpq] at hp'
    exact hwf p hp'

lemma stake_builds_entry (s : StakingState) (u amount lockPeriod now : Nat)
    (hp : s.paused = false) (ha : 0 < amount)
    (hrange : MIN_STAKING_PERIOD ≤ lockPeriod ∧ lockPeriod ≤ MAX_STAKING_PERIOD)
    (hm : 0 < s.periodMultipliers lockPeriod) :
    stake s u amount lockPeriod now = .ok { s with
      stakes := Function.update s.stakes u (s.stakes u ++
        [⟨amount, now, lockPeriod, amount * s.periodMultipliers lockPeriod / 100, true⟩])
      totalStakers := if s.userTotalStaked u = 0 then s.totalStakers + 1 else s.totalStakers
      userTotalStaked := Function.update s.userTotalStaked u (s.userTotalStaked u + amount)
      userGovernanceWeight := Function.update s.userGovernanceWeight u
        (s.userGovernanceWeight u + amount * s.periodMultipliers lockPeriod / 100)
      totalStaked := s.totalStaked + amount } := by
  simp only [stake]
  rw [if_neg (by simp [hp]), if_neg (by omega), if_neg (by omega), if_neg (by omega)]

/-- C4: for every positive amount and every lock period carrying a configured
(nonzero) multiplier — such periods always lie inside the allowed range,
since the constructor table does and updatePeriodMultiplier validates the
range — a stake call succeeds and records a new entry whose governanceWeight
is exactly amount * periodMultipliers[lockPeriod] / 100. -/
theorem c4_stake_weight_determinism (s : StakingState) (u amount lockPeriod now : Nat)
    (hp : s.paused = false) (ha : 0 < amount)
    (hm : 0 < s.periodMultipliers lockPeriod)
    (hwf : MultTableWF s.periodMultipliers) :
    ∃ s', stake s u amount lockPeriod now = .ok s' ∧
      (s'.stakes u)[(s.stakes u).length]?
        = some ⟨amount, now, lockPeriod, amount * s.periodMultipliers lockPeriod / 100, true⟩ := by
  have hrange := hwf lockPeriod hm
  refine ⟨_, stake_builds_entry s u amount lockPeriod now hp ha hrange hm, ?_⟩
  show (Function.update s.stakes u (s.stakes u ++
      [⟨amount, now, lockPeriod, amount * s.periodMultipliers lockPeriod / 100, true⟩]) u)[
        (s.stakes u).length]? = _
  rw [Function.update_same]
  exact getElem?_concat_len (s.stakes u) _

/-- Witness for C4: staking 1000 for 365 days on the fresh contract yields
governance weight 1000 * 200 / 100 = 2000. -/
theorem c4_stake_weight_determinism_witness :
    ∃ s', stake initStaking 1 1000 31536000 0 = .ok s' ∧
      (s'.stakes 1)[(initStaking.stakes 1).length]?
        = some ⟨1000, 0, 31536000, 1000 * initStaking.periodMultipliers 31536000 / 100, true⟩ :=
  c4_stake_weight_determinism initStaking 1 1000 31536000 0
    rfl (by decide) (by decide) initPeriodMultipliers_wf

/-- C5: a stake of some amount followed — any time at or after maturity — by
the unstake of that same entry hands back exactly the staked amount: the
ledger stores the amount unchanged and safeTransfer returns precisely it,
zero growth and zero shrinkage. -/
theorem c5_zero_reward_round_trip (s : StakingState) (u amount lockPeriod now fut : Nat)
    (hp : s.paused = false) (ha : 0 < amount)
    (hm : 0 < s.periodMultipliers lockPeriod)
    (hwf : MultTableWF s.periodMultipliers)
    (ht : now + lockPeriod ≤ fut) :
    ∃ s1 s2, stake s u amount lockPeriod now = .ok s1 ∧
      unstake s1 u (s.stakes u).length fut = .ok (s2, amount) := by
  have hrange := hwf lockPeriod hm
  set w : Nat := amount * s.periodMultipliers lockPeriod / 100 with hwdef
  set entry : StakeInfo := ⟨amount, now, lockPeriod, w, true⟩ with hedef
  set s1 : StakingState := { s with
      stakes := Function.update s.stakes u (s.stakes u ++ [entry])
      totalStakers := if s.userTotalStaked u = 0 then s.totalStakers + 1 else s.totalStakers
      userTotalStaked := Function.update s.userTotalStaked u (s.userTotalStaked u + amount)
      userGovernanceWeight := Function.update s.userGovernanceWeight u
        (s.userGovernanceWeight u + w)
      totalStaked := s.totalStaked + amount } with hs1def
  have hok : stake s u amount lockPeriod now = .ok s1 :=
    stake_builds_entry s u amount lockPeriod now hp ha hrange hm
  have hstakes1 : s1.stakes u = s.stakes u ++ [entry] := Function.update_same u _ s.stakes
  have hlook : (s1.stakes u)[(s.stakes u).length]? = some entry := by
    rw [hstakes1]
    exact getElem?_concat_len (s.stakes u) entry
  have hut1 : s1.userTotalStaked u = s.userTotalStaked u + amount :=
    Function.update_same u _ s.userTotalStaked
  have hgw1 : s1.userGovernanceWeight u = s.userGovernanceWeight u + w :=
    Function.update_same u _ s.userGovernanceWeight
  have hact : entry.isActive = true := rfl
  have hst : entry.stakingTime = now := rfl
  have hlp : entry.lockPeriod = lockPeriod := rfl
  have heam : entry.amount = amount := rfl
  have hegw : entry.governanceWeight = w := rfl
  have hts1 : s1.totalStaked = s.totalStaked + amount := rfl
  have hstk1 : s1.totalStakers
      = (if s.userTotalStaked u = 0 then s.totalStakers + 1 else s.totalStakers) := rfl
  have htime : ¬ fut < entry.stakingTime + entry.lockPeriod := by omega
  have hguard : entry.amount ≤ s1.userTotalStaked u ∧
      entry.governanceWeight ≤ s1.userGovernanceWeight u ∧
      entry.amount ≤ s1.totalStaked ∧
      (s1.userTotalStaked u - entry.amount = 0 → 1 ≤ s1.totalStakers) := by
    refine ⟨by omega, by omega, by omega, ?_⟩
    intro h0
    have hz : s.userTotalStaked u = 0 := by omega
    rw [hstk1, if_pos hz]
    omega
  suffices hex : ∃ s2, unstake s1 u (s.stakes u).length fut = .ok (s2, amount) by
    obtain ⟨s2, h2⟩ := hex
    exact ⟨s1, s2, hok, h2⟩
  simp only [unstake, hlook]
  rw [if_pos trivial, if_neg (show ¬ fut < now + lockPeriod by omega)]
  simp only [finishUnstake]
  have hg2 : amount ≤ Function.update s.userTotalStaked u (s.userTotalStaked u + amount) u ∧
      w ≤ Function.update s.userGovernanceWeight u (s.userGovernanceWeight u + w) u ∧
      amount ≤ s.totalStaked + amount ∧
      (Function.update s.userTotalStaked u (s.userTotalStaked u + amount) u - amount = 0 →
        1 ≤ (if s.userTotalStaked u = 0 then s.totalStakers + 1 else s.totalStakers)) := by
    refine ⟨?_, ?_, by omega, ?_⟩
    · rw [Function.update_same]; omega
    · rw [Function.update_same]; omega
    · intro h0
      rw [Function.update_same] at h0
      have hz : s.userTotalStaked u = 0 := by omega
      rw [if_pos hz]
      omega
  rw [if_pos hg2]
  exact ⟨_, rfl⟩

end GPRETStaking

namespace GPRETStaking

/-- Witness for C5: stake 1000 for 7 days on the fresh contract, unstake at
maturity, get back exactly 1000. -/
theorem c5_zero_reward_round_trip_witness :
    ∃ s1 s2, stake initStaking 1 1000 604800 0 = .ok s1 ∧
      unstake s1 1 (initStaking.stakes 1).length 604800 = .ok (s2, 1000) :=
  c5_zero_reward_round_trip initStaking 1 1000 604800 0 604800 rfl (by decide)
    (by decide) initPeriodMultipliers_wf (by decide)

lemma sumActiveBy_append (f : StakeInfo → Nat) (l1 l2 : List StakeInfo) :
    sumActiveBy f (l1 ++ l2) = sumActiveBy f l1 + sumActiveBy f l2 := by
  induction l1 with
  | nil => simp [sumActiveBy]
  | cons e l ih =>
    simp only [List.cons_append, sumActiveBy]
    have ih2 : sumActiveBy f (l.append l2) = sumActiveBy f l + sumActiveBy f l2 := ih
    have ih3 : sumActiveBy f (l ++ l2) = sumActiveBy f l + sumActiveBy f l2 := ih
    omega

lemma lookup_mem {l : List StakeInfo} {i : Nat} {e : StakeInfo} (h : l[i]? = some e) :
    e ∈ l := by
  induction l generalizing i with
  | nil => cases h
  | cons x xs ih =>
    cases i with
    | zero =>
      simp only [List.getElem?_cons_zero, Option.some.injEq] at h
      subst h
      exact List.mem_cons_self x xs
    | succ n =>
      simp only [List.getElem?_cons_succ] at h
      exact List.mem_cons_of_mem x (ih h)

lemma lookup_le_sumActiveBy (f : StakeInfo → Nat) {l : List StakeInfo} {i : Nat}
    {e : StakeInfo} (h : l[i]? = some e) (ha : e.isActive = true) :
    f e ≤ sumActiveBy f l := by
  induction l generalizing i with
  | nil => cases h
  | cons x xs ih =>
    cases i with
    | zero =>
      simp only [List.getElem?_cons_zero, Option.some.injEq] at h
      subst h
      simp only [sumActiveBy, ha, if_true]
      omega
    | succ n =>
      simp only [List.getElem?_cons_succ] at h
      have := ih h
      simp only [sumActiveBy]
      omega

lemma sumActiveBy_set_inactive (f : StakeInfo → Nat) {l : List StakeInfo} {i : Nat}
    {e e' : StakeInfo} (h : l[i]? = some e) (ha : e.isActive = true)
    (ha' : e'.isActive = false) :
    sumActiveBy f (l.set i e') + f e = sumActiveBy f l := by
  induction l generalizing i with
  | nil => cases h
  | cons x xs ih =>
    cases i with
    | zero =>
      simp only [List.getElem?_cons_zero, Option.some.injEq] at h
      subst h
      simp [List.set, sumActiveBy, ha, ha']
      omega
    | succ n =>
      simp only [List.getElem?_cons_succ] at h
      simp only [List.set, sumActiveBy]
      have := ih h
      omega

lemma mem_set_cases {l : List StakeInfo} {i : Nat} {e' x : StakeInfo}
    (h : x ∈ l.set i e') : x ∈ l ∨ x = e' := by
  induction l generalizing i with
  | nil => simp [List.set] at h
  | cons y ys ih =>
    cases i with
    | zero =>
      simp only [List.set] at h
      rcases List.mem_cons.mp h with h1 | h1
      · right; exact h1
      · left; exact List.mem_cons_of_mem y h1
    | succ n =>
      simp only [List.set] at h
      rcases List.mem_cons.mp h with h1 | h1
      · left; rw [h1]; exact List.mem_cons_self y ys
      · rcases ih h1 with h2 | h2
        · left; exact List.mem_cons_of_mem y h2
        · right; exact h2

lemma indicator_update (f : ℕ → ℕ) (u x : ℕ) :
    (fun v => if Function.update f u x v = 0 then 0 else 1)
      = Function.update (fun v => if f v = 0 then 0 else 1) u (if x = 0 then 0 else 1) := by
  funext v
  by_cases hv : v = u
  · subst hv
    rw [Function.update_same, Function.update_same]
  · rw [Function.update_noteq hv, Function.update_noteq hv]

lemma stakingInv_init (A : Finset ℕ) : StakingInv initStaking A := by
  constructor
  · intro u; rfl
  · intro u; rfl
  · simp [initStaking]
  · simp [initStaking]
  · intro u _; exact ⟨rfl, rfl⟩
  · intro u e he; cases he

end GPRETStaking

namespace GPRETStaking

lemma stake_inv_core {s : StakingState} {u amount : Nat} (lockPeriod now w : Nat)
    {A : Finset ℕ} (hu : u ∈ A) (inv : StakingInv s A) (ha : ¬ amount = 0) :
    StakingInv { s with
      stakes := Function.update s.stakes u (s.stakes u ++ [⟨amount, now, lockPeriod, w, true⟩])
      totalStakers := if s.userTotalStaked u = 0 then s.totalStakers + 1 else s.totalStakers
      userTotalStaked := Function.update s.userTotalStaked u (s.userTotalStaked u + amount)
      userGovernanceWeight := Function.update s.userGovernanceWeight u
        (s.userGovernanceWeight u + w)
      totalStaked := s.totalStaked + amount } A := by
  constructor
  · intro v
    by_cases hv : v = u
    · subst hv
      show sumActiveBy (fun x => x.amount)
          (Function.update s.stakes v (s.stakes v ++ [⟨amount, now, lockPeriod, w, true⟩]) v)
        = Function.update s.userTotalStaked v (s.userTotalStaked v + amount) v
      rw [Function.update_same, Function.update_same, sumActiveBy_append]
      have hbase : sumActiveBy (fun x => x.amount) (s.stakes v) = s.userTotalStaked v :=
        inv.activeAmounts v
      simp [sumActiveBy]
      omega
    · show sumActiveBy (fun x => x.amount) (Function.update s.stakes u _ v)
        = Function.update s.userTotalStaked u _ v
      rw [Function.update_noteq hv, Function.update_noteq hv]
      exact inv.activeAmounts v
  · intro v
    by_cases hv : v = u
    · subst hv
      show sumActiveBy (fun x => x.governanceWeight)
          (Function.update s.stakes v (s.stakes v ++ [⟨amount, now, lockPeriod, w, true⟩]) v)
        = Function.update s.userGovernanceWeight v (s.userGovernanceWeight v + w) v
      rw [Function.update_same, Function.update_same, sumActiveBy_append]
      have hbase : sumActiveBy (fun x => x.governanceWeight) (s.stakes v)
          = s.userGovernanceWeight v := inv.activeWeights v
      simp [sumActiveBy]
      omega
    · show sumActiveBy (fun x => x.governanceWeight) (Function.update s.stakes u _ v)
        = Function.update s.userGovernanceWeight u _ v
      rw [Function.update_noteq hv, Function.update_noteq hv]
      exact inv.activeWeights v
  · show Finset.sum A (Function.update s.userTotalStaked u (s.userTotalStaked u + amount))
      = s.totalStaked + amount
    rw [GPRET.sum_update_mem A _ u _ hu]
    have hsplit := GPRET.sum_eq_add_erase A s.userTotalStaked u hu
    have htot := inv.totalEq
    omega
  · show Finset.sum A
        (fun v => if Function.update s.userTotalStaked u (s.userTotalStaked u + amount) v = 0
                  then 0 else 1)
      = (if s.userTotalStaked u = 0 then s.totalStakers + 1 else s.totalStakers)
    rw [indicator_update, GPRET.sum_update_mem A _ u _ hu]
    have hold := inv.stakersEq
    have hsplit := GPRET.sum_eq_add_erase A
      (fun v => if s.userTotalStaked v = 0 then 0 else 1) u hu
    by_cases hz : s.userTotalStaked u = 0
    · rw [if_neg (by omega), if_pos hz]
      simp [hz] at hsplit
      omega
    · rw [if_neg (by omega), if_neg hz]
      simp [hz] at hsplit
      omega
  · intro v hv
    have hvu : v ≠ u := fun hc => hv (hc ▸ hu)
    constructor
    · show Function.update s.stakes u _ v = []
      rw [Function.update_noteq hvu]
      exact (inv.outside v hv).1
    · show Function.update s.userTotalStaked u _ v = 0
      rw [Function.update_noteq hvu]
      exact (inv.outside v hv).2
  · intro v e he
    by_cases hv : v = u
    · subst hv
      have he2 : e ∈ s.stakes v ++ [⟨amount, now, lockPeriod, w, true⟩] := by
        have he' : e ∈ Function.update s.stakes v
            (s.stakes v ++ [⟨amount, now, lockPeriod, w, true⟩]) v := he
        rwa [Function.update_same] at he'
      rcases List.mem_append.mp he2 with h1 | h1
      · exact inv.amountPos v e h1
      · have he3 : e = ⟨amount, now, lockPeriod, w, true⟩ := by simpa using h1
        rw [he3]
        show 0 < amount
        omega
    · have he' : e ∈ Function.update s.stakes u
          (s.stakes u ++ [⟨amount, now, lockPeriod, w, true⟩]) v := he
      rw [Function.update_noteq hv] at he'
      exact inv.amountPos v e he'

lemma stake_result_inv {s s' : StakingState} {u amount lockPeriod now : Nat}
    {A : Finset ℕ} (hu : u ∈ A) (inv : StakingInv s A)
    (h : stake s u amount lockPeriod now = .ok s') : StakingInv s' A := by
  simp only [stake] at h
  split_ifs at h with hp ha hr hm hz
  all_goals cases h
  · have hgen := stake_inv_core lockPeriod now
      (amount * s.periodMultipliers lockPeriod / 100) hu inv ha
    rw [if_pos hz] at hgen
    exact hgen
  · have hgen := stake_inv_core lockPeriod now
      (amount * s.periodMultipliers lockPeriod / 100) hu inv ha
    rw [if_neg hz] at hgen
    exact hgen

end GPRETStaking

namespace GPRETStaking

lemma unstake_inv_core {s : StakingState} {u i : Nat} {e : StakeInfo} {A : Finset ℕ}
    (hu : u ∈ A) (inv : StakingInv s A)
    (hl : (s.stakes u)[i]? = some e) (hact : e.isActive = true)
    (hg1 : e.amount ≤ s.userTotalStaked u)
    (hg2 : e.governanceWeight ≤ s.userGovernanceWeight u)
    (hg3 : e.amount ≤ s.totalStaked)
    (hg4 : s.userTotalStaked u - e.amount = 0 → 1 ≤ s.totalStakers) :
    StakingInv { s with
      stakes := Function.update s.stakes u ((s.stakes u).set i { e with isActive := false })
      userTotalStaked := Function.update s.userTotalStaked u (s.userTotalStaked u - e.amount)
      userGovernanceWeight := Function.update s.userGovernanceWeight u
        (s.userGovernanceWeight u - e.governanceWeight)
      totalStaked := s.totalStaked - e.amount
      totalStakers := if s.userTotalStaked u - e.amount = 0 then s.totalStakers - 1
                      else s.totalStakers } A := by
  have hpos : 0 < e.amount := inv.amountPos u e (lookup_mem hl)
  constructor
  · intro v
    by_cases hv : v = u
    · subst hv
      show sumActiveBy (fun x => x.amount)
          (Function.update s.stakes v ((s.stakes v).set i { e with isActive := false }) v)
        = Function.update s.userTotalStaked v (s.userTotalStaked v - e.amount) v
      rw [Function.update_same, Function.update_same]
      have hset := sumActiveBy_set_inactive (fun x => x.amount) hl hact
        (rfl : ({ e with isActive := false } : StakeInfo).isActive = false)
      simp only [] at hset
      have hbase : sumActiveBy (fun x => x.amount) (s.stakes v) = s.userTotalStaked v :=
        inv.activeAmounts v
      omega
    · show sumActiveBy (fun x => x.amount) (Function.update s.stakes u _ v)
        = Function.update s.userTotalStaked u _ v
      rw [Function.update_noteq hv, Function.update_noteq hv]
      exact inv.activeAmounts v
  · intro v
    by_cases hv : v = u
    · subst hv
      show sumActiveBy (fun x => x.governanceWeight)
          (Function.update s.stakes v ((s.stakes v).set i { e with isActive := false }) v)
        = Function.update s.userGovernanceWeight v
            (s.userGovernanceWeight v - e.governanceWeight) v
      rw [Function.update_same, Function.update_same]
      have hset := sumActiveBy_set_inactive (fun x => x.governanceWeight) hl hact
        (rfl : ({ e with isActive := false } : StakeInfo).isActive = false)
      simp only [] at hset
      have hbase : sumActiveBy (fun x => x.governanceWeight) (s.stakes v)
          = s.userGovernanceWeight v := inv.activeWeights v
      omega
    · show sumActiveBy (fun x => x.governanceWeight) (Function.update s.stakes u _ v)
        = Function.update s.userGovernanceWeight u _ v
      rw [Function.update_noteq hv, Function.update_noteq hv]
      exact inv.activeWeights v
  · show Finset.sum A (Function.update s.userTotalStaked u (s.userTotalStaked u - e.amount))
      = s.totalStaked - e.amount
    rw [GPRET.sum_update_mem A _ u _ hu]
    have hsplit := GPRET.sum_eq_add_erase A s.userTotalStaked u hu
    have htot := inv.totalEq
    omega
  · show Finset.sum A
        (fun v => if Function.update s.userTotalStaked u (s.userTotalStaked u - e.amount) v = 0
                  then 0 else 1)
      = (if s.userTotalStaked u - e.amount = 0 then s.totalStakers - 1 else s.totalStakers)
    rw [indicator_update, GPRET.sum_update_mem A _ u _ hu]
    have hold := inv.stakersEq
    have hsplit := GPRET.sum_eq_add_erase A
      (fun v => if s.userTotalStaked v = 0 then 0 else 1) u hu
    have hnz : ¬ s.userTotalStaked u = 0 := by omega
    simp [hnz] at hsplit
    by_cases hz : s.userTotalStaked u - e.amount = 0
    · rw [if_pos hz, if_pos hz]
      omega
    · rw [if_neg hz, if_neg hz]
      omega
  · intro v hv
    have hvu : v ≠ u := fun hc => hv (hc ▸ hu)
    constructor
    · show Function.update s.stakes u _ v = []
      rw [Function.update_noteq hvu]
      exact (inv.outside v hv).1
    · show Function.update s.userTotalStaked u _ v = 0
      rw [Function.update_noteq hvu]
      exact (inv.outside v hv).2
  · intro v x hx
    by_cases hv : v = u
    · subst hv
      have hx' : x ∈ (s.stakes v).set i { e with isActive := false } := by
        have hx2 : x ∈ Function.update s.stakes v
            ((s.stakes v).set i { e with isActive := false }) v := hx
        rwa [Function.update_same] at hx2
      rcases mem_set_cases hx' with h1 | h1
      · exact inv.amountPos v x h1
      · rw [h1]
        show 0 < e.amount
        exact hpos
    · have hx' : x ∈ Function.update s.stakes u
          ((s.stakes u).set i { e with isActive := false }) v := hx
      rw [Function.update_noteq hv] at hx'
      exact inv.amountPos v x hx'

lemma finishUnstake_result_inv {s : StakingState} {u i : Nat} {e : StakeInfo}
    {A : Finset ℕ} {r : StakingState × Nat}
    (hu : u ∈ A) (inv : StakingInv s A)
    (hl : (s.stakes u)[i]? = some e) (hact : e.isActive = true)
    (h : finishUnstake s u i e = .ok r) : StakingInv r.1 A := by
  simp only [finishUnstake] at h
  split_ifs at h with hg hz
  all_goals cases h
  · obtain ⟨hg1, hg2, hg3, hg4⟩ := hg
    have hgen := unstake_inv_core hu inv hl hact hg1 hg2 hg3 hg4
    rw [if_pos hz] at hgen
    exact hgen
  · obtain ⟨hg1, hg2, hg3, hg4⟩ := hg
    have hgen := unstake_inv_core hu inv hl hact hg1 hg2 hg3 hg4
    rw [if_neg hz] at hgen
    exact hgen

lemma unstake_result_inv {s : StakingState} {u i now : Nat} {A : Finset ℕ}
    {r : StakingState × Nat} (hu : u ∈ A) (inv : StakingInv s A)
    (h : unstake s u i now = .ok r) : StakingInv r.1 A := by
  simp only [unstake] at h
  cases hl : (s.stakes u)[i]? with
  | none =>
    simp only [hl] at h
    cases h
  | some e =>
    simp only [hl] at h
    split_ifs at h with hact htime
    all_goals first
      | cases h
      | exact finishUnstake_result_inv hu inv hl (by assumption) h

lemma emergencyUnstake_result_inv {s : StakingState} {u i : Nat} {A : Finset ℕ}
    {r : StakingState × Nat} (hu : u ∈ A) (inv : StakingInv s A)
    (h : emergencyUnstake s u i = .ok r) : StakingInv r.1 A := by
  simp only [emergencyUnstake] at h
  cases hl : (s.stakes u)[i]? with
  | none =>
    simp only [hl] at h
    cases h
  | some e =>
    simp only [hl] at h
    split_ifs at h with hact
    all_goals first
      | cases h
      | exact finishUnstake_result_inv hu inv hl (by assumption) h

lemma execSOp_inv {s : StakingState} {A : Finset ℕ} (op : SOp) (hu : SOp.user op ∈ A)
    (inv : StakingInv s A) : StakingInv (execSOp s op) A := by
  cases op with
  | stakeOp u a p t =>
    simp only [execSOp]
    cases hst : stake s u a p t with
    | ok s' => exact stake_result_inv hu inv hst
    | error err => exact inv
  | unstakeOp u i t =>
    simp only [execSOp]
    cases hst : unstake s u i t with
    | ok r => exact unstake_result_inv hu inv hst
    | error err => exact inv
  | emergencyOp u i =>
    simp only [execSOp]
    cases hst : emergencyUnstake s u i with
    | ok r => exact emergencyUnstake_result_inv hu inv hst
    | error err => exact inv

lemma execSOps_inv (ops : List SOp) {A : Finset ℕ}
    (husers : ∀ op ∈ ops, SOp.user op ∈ A)
    {s : StakingState} (inv : StakingInv s A) : StakingInv (execSOps s ops) A := by
  induction ops generalizing s with
  | nil => exact inv
  | cons op rest ih =>
    show StakingInv (execSOps (execSOp s op) rest) A
    exact ih (fun o ho => husers o (by simp [ho])) (execSOp_inv op (husers op (by simp)) inv)

end GPRETStaking

namespace GPRETStaking

/-- C7: after any sequence of stake, unstake and emergencyUnstake calls
(onto the freshly constructed contract) whose users lie in the account
universe A, the sum of the amounts of each account's active stake entries
equals userTotalStaked for that account, and the userTotalStaked values over
A sum to totalStaked. -/
theorem c7_staking_ledger_invariant (ops : List SOp) (A : Finset ℕ) (u : Nat)
    (husers : ∀ op ∈ ops, SOp.user op ∈ A) :
    sumActiveAmounts ((execSOps initStaking ops).stakes u)
        = (execSOps initStaking ops).userTotalStaked u ∧
      Finset.sum A (execSOps initStaking ops).userTotalStaked
        = (execSOps initStaking ops).totalStaked := by
  have inv := execSOps_inv ops husers (stakingInv_init A)
  exact ⟨inv.activeAmounts u, inv.totalEq⟩

/-- Witness for C7: two stakers and one matured unstake. -/
theorem c7_staking_ledger_invariant_witness :
    sumActiveAmounts ((execSOps initStaking
        [SOp.stakeOp 1 1000 604800 0, SOp.stakeOp 2 500 604800 0,
         SOp.unstakeOp 1 0 604800]).stakes 1)
      = (execSOps initStaking
        [SOp.stakeOp 1 1000 604800 0, SOp.stakeOp 2 500 604800 0,
         SOp.unstakeOp 1 0 604800]).userTotalStaked 1 ∧
    Finset.sum {1, 2} (execSOps initStaking
        [SOp.stakeOp 1 1000 604800 0, SOp.stakeOp 2 500 604800 0,
         SOp.unstakeOp 1 0 604800]).userTotalStaked
      = (execSOps initStaking
        [SOp.stakeOp 1 1000 604800 0, SOp.stakeOp 2 500 604800 0,
         SOp.unstakeOp 1 0 604800]).totalStaked :=
  c7_staking_ledger_invariant
    [SOp.stakeOp 1 1000 604800 0, SOp.stakeOp 2 500 604800 0, SOp.unstakeOp 1 0 604800]
    {1, 2} 1 (by decide)

/-- C6: in any state reachable by a sequence of staking-ledger operations,
a non-emergency unstake of an existing active entry strictly before
stakingTime + lockPeriod fails with StillLocked (reverting, so nothing
changes), and an unstake at or after that instant succeeds, handing back the
entry's amount. -/
theorem c6_lock_enforcement (ops : List SOp) (A : Finset ℕ) (u i now : Nat)
    (e : StakeInfo)
    (husers : ∀ op ∈ ops, SOp.user op ∈ A)
    (hl : ((execSOps initStaking ops).stakes u)[i]? = some e)
    (hact : e.isActive = true) :
    (now < e.stakingTime + e.lockPeriod →
      unstake (execSOps initStaking ops) u i now = .error .StillLocked) ∧
    (e.stakingTime + e.lockPeriod ≤ now →
      ∃ s2, unstake (execSOps initStaking ops) u i now = .ok (s2, e.amount)) := by
  set s : StakingState := execSOps initStaking ops with hsdef
  have inv : StakingInv s A := execSOps_inv ops husers (stakingInv_init A)
  constructor
  · intro ht
    simp only [unstake, hl]
    rw [if_pos hact, if_pos ht]
  · intro ht
    have hu : u ∈ A := by
      by_contra hun
      have hempty := (inv.outside u hun).1
      rw [hempty] at hl
      cases hl
    have hmem := lookup_mem hl
    have hpos := inv.amountPos u e hmem
    have h1 : e.amount ≤ s.userTotalStaked u := by
      have hle := lookup_le_sumActiveBy (fun x => x.amount) hl hact
      simp only [] at hle
      have hbase : sumActiveBy (fun x => x.amount) (s.stakes u) = s.userTotalStaked u :=
        inv.activeAmounts u
      omega
    have h2 : e.governanceWeight ≤ s.userGovernanceWeight u := by
      have hle := lookup_le_sumActiveBy (fun x => x.governanceWeight) hl hact
      simp only [] at hle
      have hbase : sumActiveBy (fun x => x.governanceWeight) (s.stakes u)
          = s.userGovernanceWeight u := inv.activeWeights u
      omega
    have h3 : e.amount ≤ s.totalStaked := by
      have hle := Finset.single_le_sum (f := s.userTotalStaked)
        (fun v _ => Nat.zero_le _) hu
      have htot : Finset.sum A (fun x => s.userTotalStaked x) = s.totalStaked := inv.totalEq
      omega
    have h4 : s.userTotalStaked u - e.amount = 0 → 1 ≤ s.totalStakers := by
      intro _
      have hle := Finset.single_le_sum
        (f := fun v => if s.userTotalStaked v = 0 then 0 else 1)
        (fun v _ => Nat.zero_le _) hu
      have hst := inv.stakersEq
      have hnz : ¬ s.userTotalStaked u = 0 := by omega
      simp [hnz] at hle
      omega
    simp only [unstake, hl]
    rw [if_pos hact, if_neg (by omega)]
    simp only [finishUnstake]
    rw [if_pos ⟨h1, h2, h3, h4⟩]
    exact ⟨_, rfl⟩

/-- Witness for C6: after staking 1000 for 7 days at time 0, an unstake at
time 5 is refused with StillLocked and an unstake at maturity succeeds with
exactly 1000 handed back. -/
theorem c6_lock_enforcement_witness :
    (unstake (execSOps initStaking [SOp.stakeOp 1 1000 604800 0]) 1 0 5
      = .error .StillLocked) ∧
    (∃ s2, unstake (execSOps initStaking [SOp.stakeOp 1 1000 604800 0]) 1 0 604800
      = .ok (s2, 1000)) :=
  ⟨(c6_lock_enforcement [SOp.stakeOp 1 1000 604800 0] {1} 1 0 5
      ⟨1000, 0, 604800, 1000, true⟩ (by decide) (by decide) rfl).1 (by decide),
   (c6_lock_enforcement [SOp.stakeOp 1 1000 604800 0] {1} 1 0 604800
      ⟨1000, 0, 604800, 1000, true⟩ (by decide) (by decide) rfl).2 (by decide)⟩

end GPRETStaking

namespace Oracle

/-- C9: for any pattern of per-source fetch outcomes in a collection cycle,
collectCityPrice totally computes a city result (no failure propagates): a
failing or nonpositive source is simply excluded — whenever at least one
source responded, the price list is exactly the list of successful responses
— and when every configured source failed, the result is built from the
synthetic fallback seeded by the city's base price, so the sources count
(always equal to the number of price samples used) is still positive. -/
theorem c9_source_failure_isolation (fetches : List (Option PriceQuote))
    (basePrice r1 r2 r3 : ℚ) :
    0 < (collectCityPrice fetches basePrice r1 r2 r3).sources ∧
    (collectCityPrice fetches basePrice r1 r2 r3).sources
      = (collectCityPrice fetches basePrice r1 r2 r3).prices.length ∧
    (collectPrices dataSources fetches = [] →
      (collectCityPrice fetches basePrice r1 r2 r3).prices
        = generateMockPrices basePrice r1 r2 r3) ∧
    (collectPrices dataSources fetches ≠ [] →
      (collectCityPrice fetches basePrice r1 r2 r3).prices
        = collectPrices dataSources fetches) := by
  cases hcp : collectPrices dataSources fetches with
  | nil =>
    refine ⟨?_, ?_, fun _ => ?_, fun hne => absurd rfl hne⟩
    · simp [collectCityPrice, hcp, generateMockPrices]
    · simp [collectCityPrice, hcp]
    · simp [collectCityPrice, hcp]
  | cons x xs =>
    refine ⟨?_, ?_, fun hnil => ?_, fun _ => ?_⟩
    · simp [collectCityPrice, hcp]
    · simp [collectCityPrice, hcp]
    · cases hnil
    · simp [collectCityPrice, hcp]

/-- Witness for C9: all four sources fail; the city result is built from the
three synthetic samples and reports a positive sources count. -/
theorem c9_source_failure_isolation_witness :
    0 < (collectCityPrice [none, none, none, none] 8000 0 0 0).sources ∧
    (collectCityPrice [none, none, none, none] 8000 0 0 0).prices
      = generateMockPrices 8000 0 0 0 :=
  ⟨(c9_source_failure_isolation [none, none, none, none] 8000 0 0 0).1,
   (c9_source_failure_isolation [none, none, none, none] 8000 0 0 0).2.2.1 (by decide)⟩

end Oracle
